import Mathlib

/-!
# Verification of the ez80-chess state-representation core

Shallow embedding of the board/position model (`src/board.c`, `src/board.h`),
the FEN text codec (`src/fen.c`, `src/fen.h`) and the 24-bit move codec
(`src/move.c`, `src/move.h`).

Machine integers are modelled as `Nat` (or `Int` where the C code uses signed
arithmetic), with explicit reduction modulo `2^w` where C truncation can
occur.  C strings are modelled as `List Char` (the NUL terminator is the end
of the list); output buffers are modelled by the characters written plus the
buffer capacity that the writer tracks.  All definitions follow the C source
line by line; bit masks and shifts use the same constants as the source.
-/

namespace EZ80Chess

/-! ## Constants from `board.h`, `move.h`, `fen.h` -/

def PIECE_NONE : Nat := 0
def PIECE_PAWN : Nat := 1
def PIECE_KNIGHT : Nat := 2
def PIECE_BISHOP : Nat := 3
def PIECE_ROOK : Nat := 4
def PIECE_QUEEN : Nat := 5
def PIECE_KING : Nat := 6

def PIECE_WHITE : Nat := 0x00
def PIECE_BLACK : Nat := 0x80

def SIDE_WHITE : Nat := 0
def SIDE_BLACK : Nat := 1

def CASTLE_WK : Nat := 0x01
def CASTLE_WQ : Nat := 0x02
def CASTLE_BK : Nat := 0x04
def CASTLE_BQ : Nat := 0x08

/-- `NO_SQUARE = (square_t)(-1)`: the `uint8_t` sentinel 0xFF. -/
def NO_SQUARE : Nat := 0xFF

def PRIORITY_NORMAL : Nat := 0
def PRIORITY_KILLER : Nat := 1
def PRIORITY_CAPTURE : Nat := 2
def PRIORITY_HASH : Nat := 3

def SPECIAL_NONE : Nat := 0
def SPECIAL_EN_PASSANT : Nat := 1
def SPECIAL_CASTLE_KING : Nat := 2
def SPECIAL_CASTLE_QUEEN : Nat := 3

def FEN_MIN_LEN : Nat := 24

def MOVE_STR_MIN_LEN : Nat := 4
def MOVE_STR_MAX_LEN : Nat := 5

/-! ## Squares and pieces (`board.h` inline helpers and macros) -/

/-- `is_valid_square`: `!((sq) & 0x88)`. -/
def is_valid_square (square : Nat) : Bool := square &&& 0x88 == 0

/-- `FILE_RANK_TO_SQUARE(file, rank) = ((rank) << 4) | (file)`. -/
def square_from_file_rank (file rank : Nat) : Nat := (rank <<< 4) ||| file

/-- `SQUARE_TO_FILE(square) = (square) & 0x07`. -/
def square_to_file (square : Nat) : Nat := square &&& 0x07

/-- `SQUARE_TO_RANK(square) = (square) >> 4`. -/
def square_to_rank (square : Nat) : Nat := square >>> 4

/-- `GET_PIECE_TYPE(piece) = (piece) & 0x07`. -/
def get_piece_type (piece : Nat) : Nat := piece &&& 0x07

/-- `GET_PIECE_COLOR(piece) = (piece) & 0x80`. -/
def get_piece_color (piece : Nat) : Nat := piece &&& 0x80

/-- `COLOR_TO_SIDE(color) = (color == PIECE_WHITE ? SIDE_WHITE : SIDE_BLACK)`. -/
def color_to_side (color : Nat) : Nat := if color = PIECE_WHITE then SIDE_WHITE else SIDE_BLACK

/-- `MAKE_PIECE(color, type) = (color) | (type)`. -/
def make_piece (color ty : Nat) : Nat := color ||| ty

/-! ## The board structure (`board_t` in `board.h`)

`squares` is the 128-slot 0x88 array; `king_square` is the two-element
`square_t king_square[SIDE_COUNT]` array, modelled as an ordered pair
(white entry, black entry).  Counters are `uint16_t`. -/

structure board_t where
  squares : List Nat
  side_to_move : Nat
  king_square : Nat × Nat
  castling_rights : Nat
  en_passant_square : Nat
  halfmove_clock : Nat
  fullmove_number : Nat
deriving DecidableEq, Repr

/-- Read `king_square[side]` for `side < 2`. -/
def king_square_of (b : board_t) (side : Nat) : Nat :=
  if side = SIDE_WHITE then b.king_square.1 else b.king_square.2

/-- `board_clear`: `memset(board, 0, sizeof(board_t))` followed by
`en_passant_square = NO_SQUARE` and `fullmove_number = 1`.  The result does
not depend on the previous contents, so it is modelled as the cleared
state itself. -/
def board_clear : board_t :=
  { squares := List.replicate 128 0
    side_to_move := SIDE_WHITE
    king_square := (0, 0)
    castling_rights := 0
    en_passant_square := NO_SQUARE
    halfmove_clock := 0
    fullmove_number := 1 }

/-- `board_set_piece` (`board.c:63`): silent no-op on an invalid square;
writes the piece and refreshes the king cache when a king is placed. -/
def board_set_piece (b : board_t) (square piece : Nat) : board_t :=
  if ¬ is_valid_square square then b
  else
    let b1 := { b with squares := b.squares.set square piece }
    if get_piece_type piece = PIECE_KING then
      if color_to_side (get_piece_color piece) = SIDE_WHITE then
        { b1 with king_square := (square, b1.king_square.2) }
      else
        { b1 with king_square := (b1.king_square.1, square) }
    else b1

/-- `board_get_piece` (`board.c:76`). -/
def board_get_piece (b : board_t) (square : Nat) : Nat :=
  if is_valid_square square then b.squares.getD square 0 else PIECE_NONE

/-- `board_is_empty` (`board.c:80`). -/
def board_is_empty (b : board_t) (square : Nat) : Bool :=
  board_get_piece b square == PIECE_NONE

/-- `board_has_castling_rights` (`board.c:26`). -/
def board_has_castling_rights (b : board_t) (rights : Nat) : Bool :=
  b.castling_rights &&& rights == rights

/-- `char_to_piece` (`board.c:30`): `islower`/`tolower` restricted to the
ASCII C locale. -/
def char_to_piece (c : Char) : Nat :=
  let color : Nat := if 'a' ≤ c ∧ c ≤ 'z' then PIECE_BLACK else PIECE_WHITE
  let lc : Char := if 'A' ≤ c ∧ c ≤ 'Z' then Char.ofNat (c.toNat + 32) else c
  if lc = 'p' then make_piece color PIECE_PAWN
  else if lc = 'n' then make_piece color PIECE_KNIGHT
  else if lc = 'b' then make_piece color PIECE_BISHOP
  else if lc = 'r' then make_piece color PIECE_ROOK
  else if lc = 'q' then make_piece color PIECE_QUEEN
  else if lc = 'k' then make_piece color PIECE_KING
  else PIECE_NONE

/-- Lower-case letter for a piece type, `'.'` for the `default:` branch of
the `switch` in `piece_to_char`. -/
def piece_type_char (ty : Nat) : Char :=
  if ty = PIECE_PAWN then 'p'
  else if ty = PIECE_KNIGHT then 'n'
  else if ty = PIECE_BISHOP then 'b'
  else if ty = PIECE_ROOK then 'r'
  else if ty = PIECE_QUEEN then 'q'
  else if ty = PIECE_KING then 'k'
  else '.'

/-- `piece_to_char` (`board.c:48`): upper-case for white via `toupper`. -/
def piece_to_char (piece : Nat) : Char :=
  let c := piece_type_char (get_piece_type piece)
  if c = '.' then '.'
  else if get_piece_color piece = PIECE_WHITE then Char.ofNat (c.toNat - 32) else c

/-! ## Move codec (`move.h`)

`move_t` is a `uint24_t`; every constructor result is reduced `% 2^24` to
model the cast.  Field layout: from bits 0-6, to bits 7-13, priority bits
14-15, promotion bits 16-18, capture bits 19-21, special bits 22-23. -/

/-- `make_move` (`move.h:133`). -/
def make_move (fromSq toSq : Nat) : Nat :=
  (fromSq ||| (toSq <<< 7)) % 2 ^ 24

/-- `make_capture` (`move.h:145`). -/
def make_capture (fromSq toSq captured : Nat) : Nat :=
  (make_move fromSq toSq ||| (captured <<< 19) ||| (PRIORITY_CAPTURE <<< 14)) % 2 ^ 24

/-- `make_promotion` (`move.h:158`). -/
def make_promotion (fromSq toSq promote : Nat) : Nat :=
  (make_move fromSq toSq ||| (promote <<< 16)) % 2 ^ 24

/-- `make_capture_promotion` (`move.h:171`). -/
def make_capture_promotion (fromSq toSq captured promote : Nat) : Nat :=
  (make_move fromSq toSq ||| (captured <<< 19) ||| (PRIORITY_CAPTURE <<< 14) |||
    (promote <<< 16)) % 2 ^ 24

/-- `make_special` (`move.h:186`): en passant forces a pawn capture with
capture priority. -/
def make_special (fromSq toSq special : Nat) : Nat :=
  let move := (make_move fromSq toSq ||| (special <<< 22)) % 2 ^ 24
  if special = SPECIAL_EN_PASSANT then
    (move ||| (PIECE_PAWN <<< 19) ||| (PRIORITY_CAPTURE <<< 14)) % 2 ^ 24
  else move

/-- `get_from_square` (`move.h:207`). -/
def get_from_square (move : Nat) : Nat := (move >>> 0) &&& 0x7F

/-- `get_to_square` (`move.h:216`). -/
def get_to_square (move : Nat) : Nat := (move >>> 7) &&& 0x7F

/-- `get_capture_type` (`move.h:225`). -/
def get_capture_type (move : Nat) : Nat := (move >>> 19) &&& 0x7

/-- `get_promotion_type` (`move.h:234`). -/
def get_promotion_type (move : Nat) : Nat := (move >>> 16) &&& 0x7

/-- `get_special_type` (`move.h:243`). -/
def get_special_type (move : Nat) : Nat := (move >>> 22) &&& 0x3

/-- `get_priority` (`move.h:252`). -/
def get_priority (move : Nat) : Nat := (move >>> 14) &&& 0x3

/-- `set_priority` (`move.h:262`): `move &= ~(3 << 14); move |= p << 14`
in 24-bit arithmetic (`~(3 << 14)` as `uint24_t` is `0xFF3FFF`). -/
def set_priority (move priority : Nat) : Nat :=
  ((move &&& 0xFF3FFF) ||| (priority <<< 14)) % 2 ^ 24

/-- `is_capture` (`move.h:276`). -/
def is_capture (move : Nat) : Bool := get_capture_type move != PIECE_NONE

/-- `is_promotion` (`move.h:285`). -/
def is_promotion (move : Nat) : Bool := get_promotion_type move != PIECE_NONE

/-- `is_special` (`move.h:294`). -/
def is_special (move : Nat) : Bool := get_special_type move != SPECIAL_NONE

/-! ## Move string codec (`move.c`) -/

/-- `file_to_char` (`move.c:34`): `'a' + file` for `file < 8`, else `'\0'`
(the NUL sentinel is `Char.ofNat 0`). -/
def file_to_char (file : Nat) : Char :=
  if file < 8 then Char.ofNat (97 + file) else Char.ofNat 0

/-- `rank_to_char` (`move.c:43`): `'1' + rank` for `rank < 8`, else `'\0'`. -/
def rank_to_char (rank : Nat) : Char :=
  if rank < 8 then Char.ofNat (49 + rank) else Char.ofNat 0

/-- `char_to_file` (`move.c:52`): file number 0-7 or -1 (signed `int8_t`). -/
def char_to_file (c : Char) : Int :=
  if 'a' ≤ c ∧ c ≤ 'h' then (c.toNat : Int) - 97 else -1

/-- `char_to_rank` (`move.c:64`). -/
def char_to_rank (c : Char) : Int :=
  if '1' ≤ c ∧ c ≤ '8' then (c.toNat : Int) - 49 else -1

/-- `promotion_to_char` (`move.c:76`): upper-case piece letter or `'\0'`. -/
def promotion_to_char (ty : Nat) : Char :=
  if ty = PIECE_KNIGHT then 'N'
  else if ty = PIECE_BISHOP then 'B'
  else if ty = PIECE_ROOK then 'R'
  else if ty = PIECE_QUEEN then 'Q'
  else Char.ofNat 0

/-- `char_to_promotion` (`move.c:91`): `toupper` then switch. -/
def char_to_promotion (c : Char) : Nat :=
  let uc : Char := if 'a' ≤ c ∧ c ≤ 'z' then Char.ofNat (c.toNat - 32) else c
  if uc = 'N' then PIECE_KNIGHT
  else if uc = 'B' then PIECE_BISHOP
  else if uc = 'R' then PIECE_ROOK
  else if uc = 'Q' then PIECE_QUEEN
  else PIECE_NONE

/-- `move_to_string` (`move.c:105`).  Returns the exact byte sequence the C
function stores into `str` (terminating NUL included) on the `true` path,
and `none` on every `return false` path, on which the C function leaves the
buffer without a complete string.  `length` is the caller's buffer length;
the byte count of the `some` result is the number of bytes the C code
writes, regardless of `length`. -/
def move_to_string (move : Nat) (length : Nat) : Option (List Char) :=
  if move = 0 ∨ length < MOVE_STR_MIN_LEN ∨ (is_promotion move ∧ length < MOVE_STR_MAX_LEN) then
    none
  else
    let fromSq := get_from_square move
    let toSq := get_to_square move
    if ¬ is_valid_square fromSq ∨ ¬ is_valid_square toSq then none
    else
      let ff := file_to_char (square_to_file fromSq)
      let fr := rank_to_char (square_to_rank fromSq)
      if ff = Char.ofNat 0 ∨ fr = Char.ofNat 0 then none
      else
        let tf := file_to_char (square_to_file toSq)
        let tr := rank_to_char (square_to_rank toSq)
        if tf = Char.ofNat 0 ∨ tr = Char.ofNat 0 then none
        else
          let promo := get_promotion_type move
          if promo ≠ PIECE_NONE then
            let pc := promotion_to_char promo
            if pc = Char.ofNat 0 then none
            else some [ff, fr, tf, tr, Char.ofNat (pc.toNat + 32), Char.ofNat 0]
          else some [ff, fr, tf, tr, Char.ofNat 0]

/-- The final special-move upgrade block of `string_to_move`
(`move.c:222`), shared by the promotion and non-promotion paths (the C
function reaches this code on every path that has not returned 0): a king
moving exactly two files becomes a castle, a pawn landing on the board's
en-passant target becomes the en-passant special move, anything else
keeps the move built so far. -/
def string_to_move_finish (ty fromSq toSq : Nat) (ff tf : Int) (board : board_t)
    (move : Nat) : Nat :=
  if ty = PIECE_KING then
    let file_diff := tf - ff
    if file_diff = 2 ∨ file_diff = -2 then
      let special := if file_diff > 0 then SPECIAL_CASTLE_KING else SPECIAL_CASTLE_QUEEN
      make_special fromSq toSq special
    else move
  else if ty = PIECE_PAWN then
    if toSq = board.en_passant_square then make_special fromSq toSq SPECIAL_EN_PASSANT
    else move
  else move

/-- Body of `string_to_move` (`move.c:159`) after the `strlen` dispatch:
`c0..c3` are the four coordinate characters, `promoChar` the optional
fifth character. -/
def string_to_move_core (c0 c1 c2 c3 : Char) (promoChar : Option Char)
    (board : board_t) : Nat :=
  let ff := char_to_file c0
  let fr := char_to_rank c1
  let tf := char_to_file c2
  let tr := char_to_rank c3
  if ff < 0 ∨ fr < 0 ∨ tf < 0 ∨ tr < 0 then 0
  else
    let fromSq := square_from_file_rank ff.toNat fr.toNat
    let toSq := square_from_file_rank tf.toNat tr.toNat
    let piece := board_get_piece board fromSq
    if piece = PIECE_NONE then 0
    else
      let ty := get_piece_type piece
      let color := get_piece_color piece
      let capture := board_get_piece board toSq
      let capture_type := if capture ≠ PIECE_NONE then get_piece_type capture else PIECE_NONE
      let move1 := if capture ≠ PIECE_NONE then make_capture fromSq toSq capture_type
                   else make_move fromSq toSq
      match promoChar with
      | none => string_to_move_finish ty fromSq toSq ff tf board move1
      | some c4 =>
        let promo := char_to_promotion c4
        if promo = PIECE_NONE then 0
        else
          let valid_white_promotion := color = PIECE_WHITE ∧ tr = 7
          let valid_black_promotion := color = PIECE_BLACK ∧ tr = 0
          if ty ≠ PIECE_PAWN ∨ (¬ valid_white_promotion ∧ ¬ valid_black_promotion) then 0
          else
            let move2 := if capture_type ≠ PIECE_NONE then
                make_capture_promotion fromSq toSq capture_type promo
              else make_promotion fromSq toSq promo
            string_to_move_finish ty fromSq toSq ff tf board move2

/-- `string_to_move` (`move.c:159`): the `strlen` check admits exactly 4 or
5 characters; shorter or longer inputs (and the null-pointer cases) yield
the 0 sentinel. -/
def string_to_move (str : List Char) (board : board_t) : Nat :=
  match str with
  | [c0, c1, c2, c3] => string_to_move_core c0 c1 c2 c3 none board
  | [c0, c1, c2, c3, c4] => string_to_move_core c0 c1 c2 c3 (some c4) board
  | _ => 0

/-! ## FEN parser (`fen.c`)

The C parser walks a `const char*`; the model keeps the unread suffix of
the string in `ptr` (so `*ptr` is the head, `'\0'` is the empty list). -/

structure parser_t where
  ptr : List Char
  success : Bool
deriving DecidableEq, Repr

/-- `parser_create` (`fen.c:226`). -/
def parser_create (fen : List Char) : parser_t := { ptr := fen, success := true }

/-- `parser_expect` (`fen.c:230`): fails on a latched failure, end of
input, or a mismatched character; consumes the character on success. -/
def parser_expect (p : parser_t) (expected : Char) : parser_t × Bool :=
  match p.ptr with
  | [] => ({ p with success := false }, false)
  | c :: rest =>
    if !p.success || c != expected then ({ p with success := false }, false)
    else ({ p with ptr := rest }, true)

/-- `parser_expect_space` (`fen.c:239`). -/
def parser_expect_space (p : parser_t) : parser_t × Bool := parser_expect p ' '

/-- The `while` loop of `parse_piece_placement` (`fen.c:268`): returns the
board, final rank/file counters, the remaining input and whether the loop
ended without a `return` (`false` models the early `parser->success =
false; return;` paths). -/
def piece_placement_loop (b : board_t) (rank : Int) (file : Nat) :
    List Char → board_t × Int × Nat × List Char × Bool
  | [] => (b, rank, file, [], true)
  | c :: rest =>
    if c = ' ' then (b, rank, file, c :: rest, true)
    else if c = '/' then
      if file ≠ 8 then (b, rank, file, c :: rest, false)
      else piece_placement_loop b (rank - 1) 0 rest
    else if '1' ≤ c ∧ c ≤ '8' then
      piece_placement_loop b rank (file + (c.toNat - 48)) rest
    else if 8 ≤ file ∨ rank < 0 then (b, rank, file, c :: rest, false)
    else
      let piece := char_to_piece c
      if piece = PIECE_NONE ∧ c ≠ ' ' then (b, rank, file, c :: rest, false)
      else
        piece_placement_loop (board_set_piece b (square_from_file_rank file rank.toNat) piece)
          rank (file + 1) rest

/-- `parse_piece_placement` (`fen.c:260`). -/
def parse_piece_placement (b : board_t) (p : parser_t) : board_t × parser_t :=
  if !p.success then (b, p)
  else
    match piece_placement_loop b 7 0 p.ptr with
    | (b1, rank, file, rest, ok) =>
      if !ok then (b1, { ptr := rest, success := false })
      else (b1, { ptr := rest, success := decide (rank = 0 ∧ file = 8) })

/-- `parse_side_to_move` (`fen.c:307`): `*ptr` at end of input is `'\0'`,
which matches neither `'w'` nor `'b'`. -/
def parse_side_to_move (b : board_t) (p : parser_t) : board_t × parser_t :=
  if !p.success then (b, p)
  else
    match p.ptr with
    | [] => (b, { p with success := false })
    | c :: rest =>
      if c = 'w' then ({ b with side_to_move := SIDE_WHITE }, { p with ptr := rest })
      else if c = 'b' then ({ b with side_to_move := SIDE_BLACK }, { p with ptr := rest })
      else (b, { p with success := false })

/-- The `while` loop of `parse_castling_rights` (`fen.c:334`): accumulates
flags; a character outside `{K,Q,k,q}` ends the loop with failure, keeping
the flags set so far (the C code ORs directly into the board). -/
def castling_loop (rights : Nat) : List Char → Nat × List Char × Bool
  | [] => (rights, [], true)
  | c :: rest =>
    if c = ' ' then (rights, c :: rest, true)
    else if c = 'K' then castling_loop (rights ||| CASTLE_WK) rest
    else if c = 'Q' then castling_loop (rights ||| CASTLE_WQ) rest
    else if c = 'k' then castling_loop (rights ||| CASTLE_BK) rest
    else if c = 'q' then castling_loop (rights ||| CASTLE_BQ) rest
    else (rights, c :: rest, false)

/-- `parse_castling_rights` (`fen.c:324`). -/
def parse_castling_rights (b : board_t) (p : parser_t) : board_t × parser_t :=
  if !p.success then (b, p)
  else
    match p.ptr with
    | '-' :: rest => (b, { p with ptr := rest })
    | other =>
      match castling_loop b.castling_rights other with
      | (rights, rest, ok) =>
        ({ b with castling_rights := rights }, { ptr := rest, success := ok })

/-- `parse_en_passant` (`fen.c:346`): `ptr[0] - 'a'` and `ptr[1] - '1'`
are `uint8_t` subtractions, so characters below `'a'` / `'1'` wrap to
large values and fail the `< 8` bound (the source characters are ASCII,
hence below 256). -/
def parse_en_passant (b : board_t) (p : parser_t) : board_t × parser_t :=
  if !p.success then (b, p)
  else
    match p.ptr with
    | '-' :: rest => ({ b with en_passant_square := NO_SQUARE }, { p with ptr := rest })
    | c0 :: c1 :: rest =>
      let file := (c0.toNat + 256 - 97) % 256
      let rank := (c1.toNat + 256 - 49) % 256
      if 8 ≤ file ∨ 8 ≤ rank then (b, { p with success := false })
      else ({ b with en_passant_square := square_from_file_rank file rank },
            { p with ptr := rest })
    | _ => (b, { p with success := false })

/-- `isspace` in the C locale, as consumed by `strtol`. -/
def isspace_c (c : Char) : Bool :=
  c = ' ' ∨ c = '\t' ∨ c = '\n' ∨ c = '\x0b' ∨ c = '\x0c' ∨ c = '\r'

/-- The digit-consuming loop of `strtol` base 10. -/
def strtol_digits (acc : Int) : List Char → Int × List Char
  | [] => (acc, [])
  | c :: rest =>
    if '0' ≤ c ∧ c ≤ '9' then strtol_digits (acc * 10 + ((c.toNat : Int) - 48)) rest
    else (acc, c :: rest)

/-- `strtol(s, &end, 10)`: skips leading whitespace, accepts one optional
sign, then consumes digits greedily.  Returns the value, the suffix `end`
points to, and whether any digit was consumed (if not, `end == s`, so the
returned suffix is the whole input). -/
def strtol10 (s : List Char) : Int × List Char × Bool :=
  let s1 := s.dropWhile isspace_c
  let signAndRest : Bool × List Char :=
    match s1 with
    | '-' :: rest => (true, rest)
    | '+' :: rest => (false, rest)
    | _ => (false, s1)
  match signAndRest.2 with
  | c :: rest =>
    if '0' ≤ c ∧ c ≤ '9' then
      match strtol_digits 0 (c :: rest) with
      | (v, rest2) => ((if signAndRest.1 then -v else v), rest2, true)
    else (0, s, false)
  | [] => (0, s, false)

/-- `parse_halfmove_clock` (`fen.c:375`): the clock (a `uint16_t`) is
assigned from `strtol` before the `end == ptr` failure check, and the
pointer advances only on success. -/
def parse_halfmove_clock (b : board_t) (p : parser_t) : board_t × parser_t :=
  if !p.success then (b, p)
  else
    match strtol10 p.ptr with
    | (v, rest, consumed) =>
      let b1 := { b with halfmove_clock := (v % 65536).toNat }
      if !consumed then (b1, { p with success := false })
      else (b1, { p with ptr := rest })

/-- `parse_fullmove_number` (`fen.c:391`). -/
def parse_fullmove_number (b : board_t) (p : parser_t) : board_t × parser_t :=
  if !p.success then (b, p)
  else
    match strtol10 p.ptr with
    | (v, rest, consumed) =>
      let b1 := { b with fullmove_number := (v % 65536).toNat }
      if !consumed then (b1, { p with success := false })
      else (b1, { p with ptr := rest })

/-- `board_set_fen` (`fen.c:156`) for a non-null input string: the board
is cleared unconditionally before any field is parsed, so the previous
contents of `board` never influence the result. -/
def board_set_fen (_board : board_t) (fen : List Char) : board_t × Bool :=
  let b0 := board_clear
  let p0 := parser_create fen
  let s1 := parse_piece_placement b0 p0
  let p1 := (parser_expect_space s1.2).1
  let s2 := parse_side_to_move s1.1 p1
  let p2 := (parser_expect_space s2.2).1
  let s3 := parse_castling_rights s2.1 p2
  let p3 := (parser_expect_space s3.2).1
  let s4 := parse_en_passant s3.1 p3
  let p4 := (parser_expect_space s4.2).1
  let s5 := parse_halfmove_clock s4.1 p4
  let p5 := (parser_expect_space s5.2).1
  let s6 := parse_fullmove_number s5.1 p5
  (s6.1, s6.2.success)

/-! ## FEN writer (`fen.c`)

The writer appends into a caller buffer; `buf` collects the characters
written so far and `remaining` is the space left (`writer_t` in the C
source tracks a moving pointer plus the same counter). -/

structure writer_t where
  buf : List Char
  success : Bool
  remaining : Nat
deriving DecidableEq, Repr

/-- `writer_create` (`fen.c:243`). -/
def writer_create (len : Nat) : writer_t := { buf := [], success := true, remaining := len }

/-- `writer_write_char` (`fen.c:247`): needs room for the character plus a
terminator, otherwise latches failure without writing. -/
def writer_write_char (w : writer_t) (c : Char) : writer_t :=
  match w with
  | ⟨buf, success, remaining⟩ =>
    if !success || remaining ≤ 1 then ⟨buf, false, remaining⟩
    else ⟨buf ++ [c], success, remaining - 1⟩

/-- `writer_write_space` (`fen.c:256`). -/
def writer_write_space (w : writer_t) : writer_t := writer_write_char w ' '

/-- Inner file loop of `write_piece_placement` (`fen.c:413`): walks the
given list of files of `rank` (called with `[0, ..., 7]`, the range of the
C `for` loop), flushing the pending empty-run digit before each piece
letter.  The C code drains the final `empty` counter right after the loop
(`fen.c:428`); that flush is performed here at the loop exit, which writes
the same characters. -/
def write_files (b : board_t) (rank : Nat) : List Nat → Nat → writer_t → writer_t
  | [], empty, w =>
    if empty ≠ 0 then writer_write_char w (Char.ofNat (48 + empty)) else w
  | file :: files, empty, w =>
    let piece := board_get_piece b (square_from_file_rank file rank)
    if piece = PIECE_NONE then write_files b rank files (empty + 1) w
    else
      let w1 := if empty ≠ 0 then writer_write_char w (Char.ofNat (48 + empty)) else w
      write_files b rank files 0 (writer_write_char w1 (piece_to_char piece))

/-- Outer rank loop of `write_piece_placement` (`fen.c:411`): ranks
`rank` down to 0, each rank's files (final empty-run digit included) via
`write_files`, and `'/'` after every rank but the last. -/
def write_ranks (b : board_t) : Nat → writer_t → writer_t
  | 0, w => write_files b 0 (List.range 8) 0 w
  | r + 1, w => write_ranks b r (writer_write_char (write_files b (r + 1) (List.range 8) 0 w) '/')

/-- `write_piece_placement` (`fen.c:407`). -/
def write_piece_placement (b : board_t) (w : writer_t) : writer_t :=
  if !w.success then w else write_ranks b 7 w

/-- `write_side_to_move` (`fen.c:437`). -/
def write_side_to_move (b : board_t) (w : writer_t) : writer_t :=
  if !w.success then w
  else writer_write_char w (if b.side_to_move = SIDE_WHITE then 'w' else 'b')

/-- `write_castling_rights` (`fen.c:444`). -/
def write_castling_rights (b : board_t) (w : writer_t) : writer_t :=
  if !w.success then w
  else
    let rights := b.castling_rights
    if rights = 0 then writer_write_char w '-'
    else
      let w1 := if rights &&& CASTLE_WK ≠ 0 then writer_write_char w 'K' else w
      let w2 := if rights &&& CASTLE_WQ ≠ 0 then writer_write_char w1 'Q' else w1
      let w3 := if rights &&& CASTLE_BK ≠ 0 then writer_write_char w2 'k' else w2
      if rights &&& CASTLE_BQ ≠ 0 then writer_write_char w3 'q' else w3

/-- `write_en_passant` (`fen.c:469`). -/
def write_en_passant (b : board_t) (w : writer_t) : writer_t :=
  if !w.success then w
  else
    let ep := b.en_passant_square
    if ep = NO_SQUARE then writer_write_char w '-'
    else
      let w1 := writer_write_char w (Char.ofNat (97 + square_to_file ep))
      writer_write_char w1 (Char.ofNat (49 + square_to_rank ep))

/-- Decimal digits of a natural number, as `snprintf`'s `%d` renders
them; `fuel`-driven structural recursion (any `fuel > log10 n` gives the
full digit string, and `natDigits` supplies `n + 1`). -/
def natDigitsAux : Nat → Nat → List Char
  | 0, _ => []
  | f + 1, n =>
    if n < 10 then [Char.ofNat (48 + n)]
    else natDigitsAux f (n / 10) ++ [Char.ofNat (48 + n % 10)]

/-- Decimal rendering of a natural number, as `snprintf`'s `%d`. -/
def natDigits (n : Nat) : List Char := natDigitsAux (n + 1) n

/-- `write_move_counters` (`fen.c:484`): a conservative `remaining <= 16`
guard, then `snprintf(ptr, remaining, "%d %d", halfmove, fullmove)`,
failing when the formatted text (NUL excluded) does not fit strictly
inside `remaining`. -/
def write_move_counters (b : board_t) (w : writer_t) : writer_t :=
  if !w.success || w.remaining ≤ 16 then { w with success := false }
  else
    let text := natDigits b.halfmove_clock ++ [' '] ++ natDigits b.fullmove_number
    if w.remaining ≤ text.length then { w with success := false }
    else { buf := w.buf ++ text, success := true, remaining := w.remaining - text.length }

/-- `board_get_fen` (`fen.c:198`) for a non-null buffer.  `old` is the
C-string the buffer held before the call and the result is the C-string it
holds afterwards: on the `len < FEN_MIN_LEN` early return the buffer is
untouched, on a completed write it holds the written characters, and on a
mid-write failure `fen[0] = '\0'` makes it empty. -/
def board_get_fen (b : board_t) (old : List Char) (len : Nat) : List Char :=
  if len < FEN_MIN_LEN then old
  else
    let w0 := writer_create len
    let w1 := writer_write_space (write_piece_placement b w0)
    let w2 := writer_write_space (write_side_to_move b w1)
    let w3 := writer_write_space (write_castling_rights b w2)
    let w4 := writer_write_space (write_en_passant b w3)
    let w5 := write_move_counters b w4
    if w5.success ∧ 0 < w5.remaining then w5.buf else []

/-- `INITIAL_FEN` (`fen.h:30`). -/
def INITIAL_FEN : List Char :=
  "rnbqkbnr/pppppppp/8/8/8/8/PPPPPPPP/RNBQKBNR w KQkq - 0 1".toList

/-! ## Sequences of `board_set_piece` calls

Used to state the king-cache invariant over arbitrary call sequences. -/

/-- Apply a list of `board_set_piece (square, piece)` calls in order. -/
def apply_set_piece_calls (b : board_t) (calls : List (Nat × Nat)) : board_t :=
  calls.foldl (fun acc c => board_set_piece acc c.1 c.2) b

/-- The square of the most recent call in the sequence that places a king
of `side` on a valid square (`none` if there is no such call). -/
def last_king_square (side : Nat) : List (Nat × Nat) → Option Nat
  | [] => none
  | c :: rest =>
    match last_king_square side rest with
    | some sq => some sq
    | none =>
      if is_valid_square c.1 ∧ get_piece_type c.2 = PIECE_KING ∧
          color_to_side (get_piece_color c.2) = side then some c.1
      else none

/-! ## Helper lemmas -/

set_option maxHeartbeats 1600000
set_option maxRecDepth 8000

theorem testBit_FF3FFF (i : Nat) :
    Nat.testBit 0xFF3FFF i = (decide (i < 24) && !(decide (i = 14) || decide (i = 15))) := by
  rcases Nat.lt_or_ge i 24 with h | h
  · interval_cases i <;> decide
  · rw [Nat.testBit_lt_two_pow (by calc (0xFF3FFF : Nat) < 2 ^ 24 := by norm_num
        _ ≤ 2 ^ i := Nat.pow_le_pow_right (by norm_num) h)]
    simp
    omega

theorem testBit_127 (i : Nat) : Nat.testBit 0x7F i = decide (i < 7) := by
  have h : (0x7F : Nat) = 2 ^ 7 - 1 := by norm_num
  rw [h, Nat.testBit_two_pow_sub_one]

theorem testBit_7 (i : Nat) : Nat.testBit 0x7 i = decide (i < 3) := by
  have h : (0x7 : Nat) = 2 ^ 3 - 1 := by norm_num
  rw [h, Nat.testBit_two_pow_sub_one]

theorem testBit_3 (i : Nat) : Nat.testBit 0x3 i = decide (i < 2) := by
  have h : (0x3 : Nat) = 2 ^ 2 - 1 := by norm_num
  rw [h, Nat.testBit_two_pow_sub_one]

theorem testBit_1 (i : Nat) : Nat.testBit 0x1 i = decide (i < 1) := by
  simpa using Nat.testBit_two_pow_sub_one 1 i

/-- A value below `2 ^ n` has no bits at positions `≥ n`. -/
theorem testBit_ge_of_lt {x n i : Nat} (hx : x < 2 ^ n) (h : n ≤ i) :
    Nat.testBit x i = false :=
  Nat.testBit_lt_two_pow (lt_of_lt_of_le hx (Nat.pow_le_pow_right (by norm_num) h))

/-- Bit-level description of `set_priority`: bits 14-15 come from the new
priority, every other bit is taken unchanged from the original move. -/
theorem set_priority_spec (m p : Nat) (hm : m < 2 ^ 24) (hp : p < 4) (i : Nat) :
    Nat.testBit (set_priority m p) i =
      if 14 ≤ i ∧ i ≤ 15 then Nat.testBit p (i - 14) else Nat.testBit m i := by
  unfold set_priority
  simp only [Nat.testBit_mod_two_pow, Nat.testBit_or, Nat.testBit_and, Nat.testBit_shiftLeft,
    testBit_FF3FFF]
  rcases Nat.lt_or_ge i 24 with h24 | h24
  · by_cases h14 : 14 ≤ i ∧ i ≤ 15
    · simp [h14, show ¬(i < 14) by omega, show i = 14 ∨ i = 15 by omega]
      rcases (show i = 14 ∨ i = 15 by omega) with rfl | rfl <;> simp
    · simp [h14, h24]
      by_cases hlt : i < 14
      · simp [hlt, show ¬(14 ≤ i) by omega, show ¬(i = 14) ∧ ¬(i = 15) by omega]
      · have hpb : Nat.testBit p (i - 14) = false :=
          testBit_ge_of_lt (show p < 2 ^ 2 by omega) (by omega)
        simp [hpb, show 14 ≤ i by omega, show ¬(i = 14) ∧ ¬(i = 15) by omega]
  · have h1 : Nat.testBit m i = false := testBit_ge_of_lt hm h24
    have h2 : Nat.testBit p (i - 14) = false :=
      testBit_ge_of_lt (show p < 2 ^ 2 by omega) (by omega)
    simp [h1, h2, show ¬(i < 24) by omega, show ¬(14 ≤ i ∧ i ≤ 15) by omega]

/-! ## Claim theorems -/

/-- **C1** (confirmed).  Round-trip on the standard start: from any prior
board state, `board_set_fen` succeeds on the standard-start FEN string,
and `board_get_fen` on the resulting board with a 128-byte buffer (any
prior buffer contents) produces exactly
`rnbqkbnr/pppppppp/8/8/8/8/PPPPPPPP/RNBQKBNR w KQkq - 0 1`. -/
theorem fen_roundtrip_standard_start (b : board_t) (old : List Char) :
    (board_set_fen b INITIAL_FEN).2 = true ∧
    board_get_fen (board_set_fen b INITIAL_FEN).1 old 128 = INITIAL_FEN := by
  have hclears : board_set_fen b INITIAL_FEN = board_set_fen board_clear INITIAL_FEN := rfl
  rw [hclears]
  constructor
  · rfl
  · show (if (128 : Nat) < FEN_MIN_LEN then old else _) = INITIAL_FEN
    rw [if_neg (by norm_num [FEN_MIN_LEN])]
    rfl

/-- **C8** (confirmed).  Priority-mutator frame: for every 24-bit encoded
move and every priority value (the four-valued `move_priority_t`),
`set_priority` yields a move whose `get_priority` is the new priority
while `get_from_square`, `get_to_square`, `get_capture_type`,
`get_promotion_type` and `get_special_type` are unchanged. -/
theorem set_priority_frame (m p : Nat) (hm : m < 2 ^ 24) (hp : p < 4) :
    get_priority (set_priority m p) = p ∧
    get_from_square (set_priority m p) = get_from_square m ∧
    get_to_square (set_priority m p) = get_to_square m ∧
    get_capture_type (set_priority m p) = get_capture_type m ∧
    get_promotion_type (set_priority m p) = get_promotion_type m ∧
    get_special_type (set_priority m p) = get_special_type m := by
  refine ⟨?_, ?_, ?_, ?_, ?_, ?_⟩
  · unfold get_priority
    apply Nat.eq_of_testBit_eq
    intro i
    simp only [Nat.testBit_and, Nat.testBit_shiftRight, testBit_3, set_priority_spec m p hm hp]
    by_cases h : i < 2
    · rw [if_pos (by omega)]
      simp [h, Nat.add_sub_cancel_left]
    · simp [h]
      exact testBit_ge_of_lt (show p < 2 ^ 2 by omega) (by omega)
  · unfold get_from_square
    apply Nat.eq_of_testBit_eq
    intro i
    simp only [Nat.shiftRight_zero, Nat.testBit_and, testBit_127, set_priority_spec m p hm hp]
    by_cases h : i < 7 <;> simp [h] <;> (intro h1 h2; exact False.elim (by omega))
  · unfold get_to_square
    apply Nat.eq_of_testBit_eq
    intro i
    simp only [Nat.testBit_and, Nat.testBit_shiftRight, testBit_127, set_priority_spec m p hm hp]
    by_cases h : i < 7 <;> simp [h] <;> (intro h1 h2; exact False.elim (by omega))
  · unfold get_capture_type
    apply Nat.eq_of_testBit_eq
    intro i
    simp only [Nat.testBit_and, Nat.testBit_shiftRight, testBit_7, set_priority_spec m p hm hp]
    by_cases h : i < 3 <;> simp [h] <;> (intro h1 h2; exact False.elim (by omega))
  · unfold get_promotion_type
    apply Nat.eq_of_testBit_eq
    intro i
    simp only [Nat.testBit_and, Nat.testBit_shiftRight, testBit_7, set_priority_spec m p hm hp]
    by_cases h : i < 3 <;> simp [h] <;> (intro h1 h2; exact False.elim (by omega))
  · unfold get_special_type
    apply Nat.eq_of_testBit_eq
    intro i
    simp only [Nat.testBit_and, Nat.testBit_shiftRight, testBit_3, set_priority_spec m p hm hp]
    by_cases h : i < 2 <;> simp [h] <;> (intro h1 h2; exact False.elim (by omega))

/-- **C8 witness**: the frame theorem instantiated on the concrete move
`e2e4` with priority `PRIORITY_HASH`. -/
theorem set_priority_frame_witness :
    get_priority (set_priority (make_move 20 52) 3) = 3 ∧
    get_from_square (set_priority (make_move 20 52) 3) = get_from_square (make_move 20 52) ∧
    get_to_square (set_priority (make_move 20 52) 3) = get_to_square (make_move 20 52) ∧
    get_capture_type (set_priority (make_move 20 52) 3) = get_capture_type (make_move 20 52) ∧
    get_promotion_type (set_priority (make_move 20 52) 3) =
      get_promotion_type (make_move 20 52) ∧
    get_special_type (set_priority (make_move 20 52) 3) = get_special_type (make_move 20 52) :=
  set_priority_frame (make_move 20 52) 3 (by decide) (by decide)

/-- **C1 witness**: the round-trip theorem at the cleared board and the
empty prior buffer. -/
theorem fen_roundtrip_standard_start_witness :
    (board_set_fen board_clear INITIAL_FEN).2 = true ∧
    board_get_fen (board_set_fen board_clear INITIAL_FEN).1 [] 128 = INITIAL_FEN :=
  fen_roundtrip_standard_start board_clear []

/-- **C2** (code_bug).  The claim (and `fen.h`'s own documentation) says a
failed `board_set_fen` leaves the position in the cleared state.  The code
clears first but then parses field by field directly into the board, so on
the input whose placement is valid and whose side-to-move character `x` is
bad, the call returns `false` yet the parsed pieces remain: square `e1`
(4) holds the white king instead of being empty, unlike the cleared
board. -/
theorem set_fen_failure_leaves_parsed_data :
    (board_set_fen board_clear
      "rnbqkbnr/pppppppp/8/8/8/8/PPPPPPPP/RNBQKBNR x KQkq - 0 1".toList).2 = false ∧
    board_get_piece (board_set_fen board_clear
      "rnbqkbnr/pppppppp/8/8/8/8/PPPPPPPP/RNBQKBNR x KQkq - 0 1".toList).1 4 =
      make_piece PIECE_WHITE PIECE_KING ∧
    board_get_piece board_clear 4 = PIECE_NONE ∧
    (board_set_fen board_clear
      "rnbqkbnr/pppppppp/8/8/8/8/PPPPPPPP/RNBQKBNR x KQkq - 0 1".toList).1 ≠ board_clear := by
  refine ⟨rfl, rfl, rfl, ?_⟩
  intro h
  exact absurd (congrArg (fun bb => board_get_piece bb 4) h) (by decide)

/-- **C3** (code_bug).  The claim (and the `MOVE_STR_MIN_BUFFER` /
`MOVE_STR_MAX_BUFFER` constants of `move.h`) requires `move_to_string` to
fail when the buffer is smaller than 5 bytes (non-promotion) or 6 bytes
(promotion).  The code compares against `MOVE_STR_MIN_LEN`/`MOVE_STR_MAX_LEN`
(4/5) instead: with a 4-byte buffer the non-promotion move `e2e4` succeeds
and 5 bytes are stored (`str[4] = '\0'` is out of bounds), and with a
5-byte buffer the promotion move `e7e8q` succeeds and 6 bytes are stored;
only buffers below 4/5 bytes fail. -/
theorem move_to_string_buffer_check_off_by_one :
    move_to_string (make_move 20 52) 4 = some ['e', '2', 'e', '4', Char.ofNat 0] ∧
    ((move_to_string (make_move 20 52) 4).getD []).length = 5 ∧
    move_to_string (make_move 20 52) 3 = none ∧
    move_to_string (make_promotion 100 116 PIECE_QUEEN) 5 =
      some ['e', '7', 'e', '8', 'q', Char.ofNat 0] ∧
    ((move_to_string (make_promotion 100 116 PIECE_QUEEN) 5).getD []).length = 6 ∧
    move_to_string (make_promotion 100 116 PIECE_QUEEN) 4 = none := by
  refine ⟨rfl, rfl, rfl, ?_, ?_, rfl⟩ <;> decide

/-- **C4** (code_bug).  The claim (and `fen.h`'s documentation) says a
buffer shorter than `FEN_MIN_LEN` receives the empty string.  The code
returns early on `len < FEN_MIN_LEN` without touching the buffer, so a
10-byte buffer keeps its previous contents (here the string `x`); only a
failure after the length gate (buffer exhausted mid-write, here at 30
bytes, which dies in the `remaining <= 16` counter guard) resets the
buffer to the empty string. -/
theorem get_fen_short_buffer_left_untouched :
    board_get_fen board_clear ['x'] 10 = ['x'] ∧
    (['x'] : List Char) ≠ [] ∧
    board_get_fen board_clear ['x'] 30 = [] := by
  refine ⟨rfl, by decide, rfl⟩

/-- **C5 counterexample**: two spaces separate the en-passant field from
the halfmove field — a deviation from single-space separation that the
claim says must fail — yet `board_set_fen` accepts the input. -/
theorem set_fen_double_space_accepted :
    (board_set_fen board_clear
      "rnbqkbnr/pppppppp/8/8/8/8/PPPPPPPP/RNBQKBNR w KQkq -  0 1".toList).2 = true := rfl

/-- **C5** (corrected).  Amended field-separation contract of the FEN
reader: fields must appear in the fixed order, and `parser_expect`
consumes exactly one space after each field — it succeeds exactly when the
expected character is next and no failure is latched — so a doubled space
after the placement field makes the parse fail.  However, the
halfmove/fullmove fields are read with `strtol`, which skips leading
whitespace (and accepts an optional sign) before consuming digits: a
counter parse fails exactly when `strtol` consumes no digit, so extra
spaces in front of the halfmove or fullmove number are accepted, and the
castling field may be empty (a run of zero letters before the next
space), so a doubled space after the side field is accepted as well. -/
theorem set_fen_field_separation_amended :
    (∀ (p : parser_t) (c : Char),
      ((parser_expect p c).1.success = true ↔ p.success = true ∧ ∃ rest, p.ptr = c :: rest)) ∧
    (∀ (b : board_t) (p : parser_t),
      ((parse_halfmove_clock b p).2.success = true ↔
        p.success = true ∧ (strtol10 p.ptr).2.2 = true)) ∧
    (board_set_fen board_clear
      "rnbqkbnr/pppppppp/8/8/8/8/PPPPPPPP/RNBQKBNR  w KQkq - 0 1".toList).2 = false ∧
    (board_set_fen board_clear
      "rnbqkbnr/pppppppp/8/8/8/8/PPPPPPPP/RNBQKBNR w KQkq -  0 1".toList).2 = true ∧
    (board_set_fen board_clear
      "rnbqkbnr/pppppppp/8/8/8/8/PPPPPPPP/RNBQKBNR w  - 0 1".toList).2 = true ∧
    (board_set_fen board_clear
      "rnbqkbnr/pppppppp/8/8/8/8/PPPPPPPP/RNBQKBNR w KQkq - x 1".toList).2 = false := by
  refine ⟨?_, ?_, rfl, rfl, rfl, rfl⟩
  · intro p c
    rcases p with ⟨ptr, success⟩
    cases ptr with
    | nil => simp [parser_expect]
    | cons d rest =>
      by_cases hs : success <;> by_cases hd : d = c <;>
        simp [parser_expect, hs, hd]
  · intro b p
    by_cases hs : p.success
    · rcases h : strtol10 p.ptr with ⟨v, rest, consumed⟩
      cases consumed <;> simp [parse_halfmove_clock, hs, h]
    · simp [parse_halfmove_clock, hs]

/-- **C5 witness**: the separator characterization applied to the parser
state sitting on a single space, expecting a space. -/
theorem set_fen_field_separation_amended_witness :
    ((parser_expect { ptr := [' '], success := true } ' ').1.success = true ↔
      ({ ptr := [' '], success := true } : parser_t).success = true ∧
        ∃ rest, ({ ptr := [' '], success := true } : parser_t).ptr = ' ' :: rest) :=
  set_fen_field_separation_amended.1 { ptr := [' '], success := true } ' '

/-- Effect of one `board_set_piece` call on the king cache: the cache
entry of `side` becomes the written square exactly when a king of that
side is placed on a valid square, and is untouched otherwise. -/
theorem king_square_of_set_piece (b : board_t) (sq pc side : Nat) (hside : side < 2) :
    king_square_of (board_set_piece b sq pc) side =
      if is_valid_square sq ∧ get_piece_type pc = PIECE_KING ∧
          color_to_side (get_piece_color pc) = side then sq
      else king_square_of b side := by
  unfold board_set_piece king_square_of color_to_side
  by_cases hv : is_valid_square sq
  · by_cases hk : get_piece_type pc = PIECE_KING
    · by_cases hw : get_piece_color pc = 0 <;> interval_cases side <;>
        simp [hv, hk, hw, SIDE_WHITE, SIDE_BLACK, PIECE_WHITE]
    · interval_cases side <;> simp [hv, hk]
  · interval_cases side <;> simp [hv]

/-- King cache after a call sequence from any starting board: the last
king placement of the side if one exists, else the starting cache. -/
theorem king_cache_foldl (calls : List (Nat × Nat)) :
    ∀ (b : board_t) (side : Nat), side < 2 →
      king_square_of (apply_set_piece_calls b calls) side =
        (last_king_square side calls).getD (king_square_of b side) := by
  induction calls with
  | nil => intro b side hs; simp [apply_set_piece_calls, last_king_square]
  | cons c rest ih =>
    intro b side hs
    have step : apply_set_piece_calls b (c :: rest) =
        apply_set_piece_calls (board_set_piece b c.1 c.2) rest := by
      simp [apply_set_piece_calls]
    rw [step, ih (board_set_piece b c.1 c.2) side hs,
      king_square_of_set_piece b c.1 c.2 side hs]
    cases h : last_king_square side rest with
    | some sq => simp [last_king_square, h]
    | none =>
      simp only [last_king_square, h, Option.getD]
      split_ifs with hcond <;> simp [hcond]

/-- **C6** (confirmed).  King-cache consistency: starting from the cleared
position, for every finite sequence of `board_set_piece` calls and each
side, `king_square[side]` afterwards equals the square of the most recent
call that placed a king of that side on a valid square, provided such a
call occurred. -/
theorem king_cache_consistency (calls : List (Nat × Nat)) (side sq : Nat)
    (hside : side < 2) (hlast : last_king_square side calls = some sq) :
    king_square_of (apply_set_piece_calls board_clear calls) side = sq := by
  rw [king_cache_foldl calls board_clear side hside, hlast]
  rfl

/-- **C6 witness**: placing the black king on e8 (0x74) and then the white
king on e1 (0x04) leaves the white cache entry at e1. -/
theorem king_cache_consistency_witness :
    king_square_of (apply_set_piece_calls board_clear [(116, 134), (4, 6)]) 0 = 4 :=
  king_cache_consistency [(116, 134), (4, 6)] 0 4 (by decide) (by decide)

/-- Capture bits of the en-passant decoration: once `PIECE_PAWN << 19` is
ORed in, the capture field reads 1 whenever the underlying square payload
stays below bit 15. -/
theorem ep_capture_bits (x : Nat) (hx : x < 2 ^ 15) :
    get_capture_type (((x ||| (1 <<< 22)) % 2 ^ 24 ||| (1 <<< 19) ||| (2 <<< 14)) % 2 ^ 24) =
      1 := by
  apply Nat.eq_of_testBit_eq
  intro i
  simp only [get_capture_type, Nat.testBit_and, Nat.testBit_shiftRight, Nat.testBit_mod_two_pow,
    Nat.testBit_or, Nat.testBit_shiftLeft, testBit_7, testBit_1]
  rcases Nat.lt_or_ge i 3 with h | h
  · have e0 : Nat.testBit x 19 = false := testBit_ge_of_lt hx (by norm_num)
    have e1 : Nat.testBit x 20 = false := testBit_ge_of_lt hx (by norm_num)
    have e2 : Nat.testBit x 21 = false := testBit_ge_of_lt hx (by norm_num)
    interval_cases i <;> simp [e0, e1, e2] <;> decide
  · simp [show ¬(i < 3) by omega, show ¬(i < 1) by omega]

/-- Priority bits of the en-passant decoration: `PRIORITY_CAPTURE << 14`
is read back as priority 2 whenever the square payload stays below
bit 14. -/
theorem ep_priority_bits (x : Nat) (hx : x < 2 ^ 14) :
    get_priority (((x ||| (1 <<< 22)) % 2 ^ 24 ||| (1 <<< 19) ||| (2 <<< 14)) % 2 ^ 24) = 2 := by
  apply Nat.eq_of_testBit_eq
  intro i
  simp only [get_priority, Nat.testBit_and, Nat.testBit_shiftRight, Nat.testBit_mod_two_pow,
    Nat.testBit_or, Nat.testBit_shiftLeft, testBit_3, testBit_1]
  rcases Nat.lt_or_ge i 2 with h | h
  · have e0 : Nat.testBit x 14 = false := testBit_ge_of_lt hx (by norm_num)
    have e1 : Nat.testBit x 15 = false := testBit_ge_of_lt hx (by norm_num)
    have e2 : Nat.testBit 2 0 = false := by decide
    have e3 : Nat.testBit 2 1 = true := by decide
    interval_cases i <;> simp [e0, e1, e2, e3]
  · have h2b : Nat.testBit 2 i = false := testBit_ge_of_lt (by norm_num) h
    simp [show ¬(i < 2) by omega, h2b]

/-- **C7 counterexample**: for the square values `from = 0`,
`to = 0x88` (the 8-bit off-board code, an admissible `square_t` value),
the en-passant constructor's priority field reads `PRIORITY_HASH`, not
`PRIORITY_CAPTURE` — bit 7 of `to` lands on bit 14 of the move word. -/
theorem make_special_en_passant_counterexample :
    get_priority (make_special 0 136 SPECIAL_EN_PASSANT) = PRIORITY_HASH ∧
    PRIORITY_HASH ≠ PRIORITY_CAPTURE := by decide

/-- **C7** (corrected).  For all 8-bit square values `from` and `to`, the
move built by `make_special (from, to, SPECIAL_EN_PASSANT)` reports
captured-piece-type pawn (so `is_capture` is true); its priority is
`PRIORITY_CAPTURE` provided `to` fits in 7 bits — which holds for every
valid 0x88 square — while a `to` with bit 7 set overflows into the
priority field. -/
theorem make_special_en_passant_amended (f t : Nat) (hf : f < 256) (ht : t < 256) :
    get_capture_type (make_special f t SPECIAL_EN_PASSANT) = PIECE_PAWN ∧
    is_capture (make_special f t SPECIAL_EN_PASSANT) = true ∧
    (t < 128 → get_priority (make_special f t SPECIAL_EN_PASSANT) = PRIORITY_CAPTURE) := by
  have hshape : make_special f t SPECIAL_EN_PASSANT =
      ((make_move f t ||| (1 <<< 22)) % 2 ^ 24 ||| (1 <<< 19) ||| (2 <<< 14)) % 2 ^ 24 := by
    simp [make_special, SPECIAL_EN_PASSANT, PIECE_PAWN, PRIORITY_CAPTURE]
  have hsl : t <<< 7 = t * 128 := by simp [Nat.shiftLeft_eq]
  have hcap : get_capture_type (make_special f t SPECIAL_EN_PASSANT) = 1 := by
    rw [hshape]
    apply ep_capture_bits
    calc make_move f t ≤ f ||| (t <<< 7) := Nat.mod_le _ _
    _ < 2 ^ 15 := Nat.or_lt_two_pow (by omega) (by omega)
  refine ⟨hcap, ?_, ?_⟩
  · simp [is_capture, hcap, PIECE_NONE]
  · intro ht128
    rw [hshape]
    apply ep_priority_bits
    calc make_move f t ≤ f ||| (t <<< 7) := Nat.mod_le _ _
    _ < 2 ^ 14 := Nat.or_lt_two_pow (by omega) (by omega)

/-- **C7 witness**: the amended invariant at the concrete en-passant
capture e5xd6 (`from = 0x44`, `to = 0x53`). -/
theorem make_special_en_passant_amended_witness :
    get_capture_type (make_special 68 83 SPECIAL_EN_PASSANT) = PIECE_PAWN ∧
    is_capture (make_special 68 83 SPECIAL_EN_PASSANT) = true ∧
    (83 < 128 → get_priority (make_special 68 83 SPECIAL_EN_PASSANT) = PRIORITY_CAPTURE) :=
  make_special_en_passant_amended 68 83 (by decide) (by decide)

/-- **C10** (confirmed).  Move bitfield round-trip domain: for square
values that fit in 7 bits the from/to fields round-trip through
`make_move`; the constructor masks nothing, so an 8-bit square value with
bit 7 set — such as the off-board code 0x88 — overflows the 7-bit from
field into the to field: `get_from_square` reads back 8 instead of 0x88,
and a to-square of 0x88 can never be read back either, because
`get_to_square` is capped at 127 by its mask. -/
theorem move_bitfield_roundtrip_domain :
    (∀ f, f < 128 → ∀ t, t < 128 →
      get_from_square (make_move f t) = f ∧ get_to_square (make_move f t) = t) ∧
    (∀ t, t < 256 →
      get_from_square (make_move 136 t) = 8 ∧ get_from_square (make_move 136 t) ≠ 136) ∧
    (∀ f, get_to_square (make_move f 136) ≠ 136) := by
  refine ⟨?_, ?_, ?_⟩
  · intro f hf t ht
    have hf' : f < 2 ^ 7 := hf
    have ht' : t < 2 ^ 7 := ht
    constructor
    · apply Nat.eq_of_testBit_eq
      intro i
      simp only [get_from_square, make_move, Nat.shiftRight_zero, Nat.testBit_and,
        Nat.testBit_mod_two_pow, Nat.testBit_or, Nat.testBit_shiftLeft, testBit_127]
      rcases Nat.lt_or_ge i 7 with h | h
      · simp [h, show i < 24 by omega, show ¬(7 ≤ i) by omega]
      · have hfb : Nat.testBit f i = false := testBit_ge_of_lt hf' h
        simp [show ¬(i < 7) by omega, hfb]
    · apply Nat.eq_of_testBit_eq
      intro i
      simp only [get_to_square, make_move, Nat.testBit_and, Nat.testBit_shiftRight,
        Nat.testBit_mod_two_pow, Nat.testBit_or, Nat.testBit_shiftLeft, testBit_127]
      rcases Nat.lt_or_ge i 7 with h | h
      · have hfb : Nat.testBit f (7 + i) = false := testBit_ge_of_lt hf' (by omega)
        simp [h, show 7 + i < 24 by omega, show 7 ≤ 7 + i by omega, hfb,
          Nat.add_sub_cancel_left]
      · have htb : Nat.testBit t i = false := testBit_ge_of_lt ht' h
        simp [show ¬(i < 7) by omega, htb]
  · intro t ht
    have h8 : get_from_square (make_move 136 t) = 8 := by
      apply Nat.eq_of_testBit_eq
      intro i
      simp only [get_from_square, make_move, Nat.shiftRight_zero, Nat.testBit_and,
        Nat.testBit_mod_two_pow, Nat.testBit_or, Nat.testBit_shiftLeft, testBit_127]
      rcases Nat.lt_or_ge i 7 with h | h
      · interval_cases i <;> simp <;> decide
      · have h8b : Nat.testBit 8 i = false :=
          testBit_ge_of_lt (by norm_num : (8 : Nat) < 2 ^ 4) (by omega)
        simp [show ¬(i < 7) by omega, h8b]
    refine ⟨h8, ?_⟩
    rw [h8]
    decide
  · intro f
    have hle : get_to_square (make_move f 136) ≤ 127 := Nat.and_le_right
    omega

/-- **C10 witness**: the round-trip at `e2`/`e4` (0x14, 0x34) and the
failing overflow readings at the off-board value 0x88. -/
theorem move_bitfield_roundtrip_domain_witness :
    (get_from_square (make_move 20 52) = 20 ∧ get_to_square (make_move 20 52) = 52) ∧
    (get_from_square (make_move 136 0) = 8 ∧ get_from_square (make_move 136 0) ≠ 136) ∧
    get_to_square (make_move 0 136) ≠ 136 :=
  ⟨move_bitfield_roundtrip_domain.1 20 (by decide) 52 (by decide),
   move_bitfield_roundtrip_domain.2.1 0 (by decide),
   move_bitfield_roundtrip_domain.2.2 0⟩

/-- **C9** (confirmed).  `string_to_move` special upgrades: whenever the
four coordinate characters decode to valid files/ranks and the source
square holds a piece (so parsing reaches the upgrade step), a king whose
file delta is exactly +2 re-encodes as the kingside castle and -2 as the
queenside castle; a pawn whose destination equals the position's
en-passant target re-encodes as the en-passant special move — also on the
five-character path when the promotion letter and promotion-rank checks
pass. -/
theorem string_to_move_special_upgrades
    (c0 c1 c2 c3 : Char) (b : board_t) (fromSq toSq : Nat)
    (h0 : 0 ≤ char_to_file c0) (h1 : 0 ≤ char_to_rank c1)
    (h2 : 0 ≤ char_to_file c2) (h3 : 0 ≤ char_to_rank c3)
    (hfrom : fromSq = square_from_file_rank (char_to_file c0).toNat (char_to_rank c1).toNat)
    (hto : toSq = square_from_file_rank (char_to_file c2).toNat (char_to_rank c3).toNat)
    (hpiece : board_get_piece b fromSq ≠ PIECE_NONE) :
    (get_piece_type (board_get_piece b fromSq) = PIECE_KING →
      (char_to_file c2 - char_to_file c0 = 2 →
        string_to_move [c0, c1, c2, c3] b = make_special fromSq toSq SPECIAL_CASTLE_KING) ∧
      (char_to_file c2 - char_to_file c0 = -2 →
        string_to_move [c0, c1, c2, c3] b = make_special fromSq toSq SPECIAL_CASTLE_QUEEN)) ∧
    (get_piece_type (board_get_piece b fromSq) = PIECE_PAWN →
      toSq = b.en_passant_square →
      string_to_move [c0, c1, c2, c3] b = make_special fromSq toSq SPECIAL_EN_PASSANT) ∧
    (∀ c4 : Char, get_piece_type (board_get_piece b fromSq) = PIECE_PAWN →
      toSq = b.en_passant_square →
      char_to_promotion c4 ≠ PIECE_NONE →
      ((get_piece_color (board_get_piece b fromSq) = PIECE_WHITE ∧ char_to_rank c3 = 7) ∨
       (get_piece_color (board_get_piece b fromSq) = PIECE_BLACK ∧ char_to_rank c3 = 0)) →
      string_to_move [c0, c1, c2, c3, c4] b = make_special fromSq toSq SPECIAL_EN_PASSANT) := by
  subst hfrom hto
  refine ⟨fun hk => ⟨fun hd => ?_, fun hd => ?_⟩, fun hp hep => ?_, fun c4 hp hep hpr hrank => ?_⟩
  · simp only [string_to_move, string_to_move_core]
    rw [if_neg (by simp only [not_or, not_lt]; exact ⟨h0, h1, h2, h3⟩)]
    rw [if_neg hpiece]
    rw [string_to_move_finish, if_pos hk, hd]
    norm_num
  · simp only [string_to_move, string_to_move_core]
    rw [if_neg (by simp only [not_or, not_lt]; exact ⟨h0, h1, h2, h3⟩)]
    rw [if_neg hpiece]
    rw [string_to_move_finish, if_pos hk, hd]
    norm_num
  · simp only [string_to_move, string_to_move_core]
    rw [if_neg (by simp only [not_or, not_lt]; exact ⟨h0, h1, h2, h3⟩)]
    rw [if_neg hpiece]
    rw [string_to_move_finish, if_neg (by rw [hp]; decide), if_pos hp, if_pos hep]
  · simp only [string_to_move, string_to_move_core]
    rw [if_neg (by simp only [not_or, not_lt]; exact ⟨h0, h1, h2, h3⟩)]
    rw [if_neg hpiece]
    rw [if_neg hpr]
    rw [if_neg (by push_neg; exact ⟨hp, by tauto⟩)]
    rw [string_to_move_finish, if_neg (by rw [hp]; decide), if_pos hp, if_pos hep]

/-- **C9 witness**: on a board whose only piece is the white king on e1,
the input `e1g1` (file delta +2) parses to the kingside-castle special
move. -/
theorem string_to_move_special_upgrades_witness :
    string_to_move ['e', '1', 'g', '1'] (board_set_piece board_clear 4 6) =
      make_special 4 6 SPECIAL_CASTLE_KING :=
  ((string_to_move_special_upgrades 'e' '1' 'g' '1' (board_set_piece board_clear 4 6) 4 6
      (by decide) (by decide) (by decide) (by decide) (by decide) (by decide)
      (by decide)).1 (by decide)).1 (by decide)

end EZ80Chess
